import Mathlib

/-!
Shallow embedding of the JSONata pricing-badge module
(useNodePricing: signature building, async evaluation scheduling,
staleness-safe caching, and result formatting).

JavaScript runtime values are modelled by the inductive `JSVal`; JS numbers
are modelled by `JSNumber` (a finite rational, or one of the non-finite
sentinels NaN / Infinity / -Infinity).  External collaborators that the
module treats as opaque (the credit formatter `formatCreditsFromUsd`, the
JS `Number()` string parser, number-to-string coercion, `JSON.stringify`,
`String()` on objects, and the jsonata compiler) are bundled in the
parameter structure `JsExt`; every theorem quantifies over it.
-/

namespace Pricing

/-- A JS number: finite (modelled as a rational) or a non-finite sentinel. -/
inductive JSNumber where
  | fin (q : Rat)
  | nan
  | inf
  | neginf
deriving DecidableEq, Repr

/-- A JS runtime value. Object fields model the own enumerable properties
of an object (distinct keys, in insertion order). -/
inductive JSVal where
  | null
  | undefined
  | bool (b : Bool)
  | num (n : JSNumber)
  | str (s : String)
  | obj (fields : List (String × JSVal))
  | arr (elems : List JSVal)

/-- Opaque external collaborators of the pricing module. -/
structure JsExt where
  /-- JS number-to-string coercion, as used by template literals and String(). -/
  numToString : JSNumber → String
  /-- JS Number() applied to a trimmed non-empty string. -/
  parseNum : String → JSNumber
  /-- formatCreditsFromUsd with the module's DEFAULT_NUMBER_OPTIONS, on a
  finite usd amount (this is `formatCreditsValue` in the source). -/
  fmtCredits : Rat → String
  /-- JSON.stringify on a non-primitive value; none models a thrown error. -/
  jsonStringify : JSVal → Option String
  /-- String() coercion of a non-primitive value. -/
  objToString : JSVal → String
  /-- jsonata(expr): some handle on success, none when compilation throws.
  The handle itself is opaque; only its presence matters to the module. -/
  compileExpr : String → Option Unit

/-- JS String() coercion. -/
def jsToString (E : JsExt) : JSVal → String
  | .null => "null"
  | .undefined => "undefined"
  | .bool true => "true"
  | .bool false => "false"
  | .num n => E.numToString n
  | .str s => s
  | v => E.objToString v

/-- Whether a value is null or undefined (the JS nullish values). -/
def isNullish : JSVal → Bool
  | .null => true
  | .undefined => true
  | _ => false

/-- JS truthiness. -/
def truthy : JSVal → Bool
  | .null => false
  | .undefined => false
  | .bool b => b
  | .num (.fin q) => if q = 0 then false else true
  | .num .nan => false
  | .num .inf => true
  | .num .neginf => true
  | .str s => if s = "" then false else true
  | .obj _ => true
  | .arr _ => true

/-- Reading an optional property: absent reads as undefined. -/
def orUndefined (v : Option JSVal) : JSVal := v.getD .undefined

/-- The JS nullish-coalescing operator (v double-question d). -/
def coalesce (v : JSVal) (d : JSVal) : JSVal := if isNullish v then d else v

/-- Look up an object field by name (none = absent property). -/
def lookupField (fields : List (String × JSVal)) (name : String) : Option JSVal :=
  (fields.find? (fun p => p.1 == name)).map (fun p => p.2)

/-- The finite part of a JS number, if any. -/
def JSNumber.toFinite? : JSNumber → Option Rat
  | .fin q => some q
  | _ => none

/-- Source `asFiniteNumber`: numbers pass through when finite; strings are
trimmed and parsed (empty to none); booleans and objects never coerce. -/
def asFiniteNumber (E : JsExt) : JSVal → Option Rat
  | .null => none
  | .undefined => none
  | .num n => n.toFinite?
  | .str s =>
      let t := s.trim
      if t = "" then none else (E.parseNum t).toFinite?
  | _ => none

/-- Source `NormalizedWidgetValue`. -/
structure NormalizedWidgetValue where
  raw : JSVal
  s : String
  n : Option Rat
  b : Option Bool

/-- Source `normalizeWidgetValue`. -/
def normalizeWidgetValue (E : JsExt) (raw : JSVal) : NormalizedWidgetValue :=
  { raw := raw
    s := match raw with
         | .null => ""
         | .undefined => ""
         | v => ((jsToString E v).trim).toLower
    n := asFiniteNumber E raw
    b := match raw with
         | .bool b => some b
         | .str s =>
             let ls := s.trim.toLower
             if ls = "true" then some true
             else if ls = "false" then some false
             else none
         | _ => none }

/-- Source `CreditFormatOptions`; each field is an optional property whose
value, when present, is an arbitrary JS value (none = property absent). -/
structure CreditFormatOptions where
  suffix : Option JSVal := none
  note : Option JSVal := none
  approximate : Option JSVal := none
  separator : Option JSVal := none

/-- Source `makePrefix`: a tilde when `approximate` is truthy, else empty. -/
def approxMark (approximate : JSVal) : String :=
  if truthy approximate then "~" else ""

/-- Source `makeSuffix`: nullish-coalesce the suffix with "/Run"; the result
is later coerced to a string by the template literal. -/
def makeSuffix (suffix : JSVal) : JSVal := coalesce suffix (.str "/Run")

/-- Source `appendNote`: a leading space plus the note when truthy. -/
def appendNote (E : JsExt) (note : JSVal) : String :=
  if truthy note then " " ++ jsToString E note else ""

/-- Source `formatCreditsLabel`. -/
def formatCreditsLabel (E : JsExt) (usd : Rat) (fmt : CreditFormatOptions) : String :=
  approxMark (orUndefined fmt.approximate)
    ++ E.fmtCredits usd ++ " credits"
    ++ jsToString E (makeSuffix (orUndefined fmt.suffix))
    ++ appendNote E (orUndefined fmt.note)

/-- Source `formatCreditsRangeLabel`: a single value when the formatted
bounds coincide textually, else a dash-separated range. -/
def formatCreditsRangeLabel (E : JsExt) (minUsd maxUsd : Rat)
    (fmt : CreditFormatOptions) : String :=
  let mn := E.fmtCredits minUsd
  let mx := E.fmtCredits maxUsd
  let rangeValue := if mn = mx then mn else mn ++ "-" ++ mx
  approxMark (orUndefined fmt.approximate)
    ++ rangeValue ++ " credits"
    ++ jsToString E (makeSuffix (orUndefined fmt.suffix))
    ++ appendNote E (orUndefined fmt.note)

/-- Source `formatCreditsListLabel`: formatted values joined by the
separator (nullish-coalesced with "/", coerced to string by join). -/
def formatCreditsListLabel (E : JsExt) (usdValues : List Rat)
    (fmt : CreditFormatOptions) : String :=
  let parts := usdValues.map E.fmtCredits
  let value := String.intercalate
    (jsToString E (coalesce (orUndefined fmt.separator) (.str "/"))) parts
  approxMark (orUndefined fmt.approximate)
    ++ value ++ " credits"
    ++ jsToString E (makeSuffix (orUndefined fmt.suffix))
    ++ appendNote E (orUndefined fmt.note)

/-- Reading an arbitrary JS value as a format-options object: the object
spread copies the four known keys when present; spreading a non-object
contributes none of them. -/
def readFormat : JSVal → CreditFormatOptions
  | .obj fields =>
      { suffix := lookupField fields "suffix"
        note := lookupField fields "note"
        approximate := lookupField fields "approximate"
        separator := lookupField fields "separator" }
  | _ => {}

/-- The spread merge of two format-option objects: a key present in the
override (even with a nullish value) wins over the default. -/
def mergeFormat (defaults overrides : CreditFormatOptions) : CreditFormatOptions :=
  { suffix := overrides.suffix.orElse (fun _ => defaults.suffix)
    note := overrides.note.orElse (fun _ => defaults.note)
    approximate := overrides.approximate.orElse (fun _ => defaults.approximate)
    separator := overrides.separator.orElse (fun _ => defaults.separator) }

/-- The per-result format merged over the rule defaults, as computed by the
usd / range_usd / list_usd branches of the source formatter. -/
def resultFormat (defaults : CreditFormatOptions)
    (fields : List (String × JSVal)) : CreditFormatOptions :=
  mergeFormat defaults
    (readFormat (coalesce (orUndefined (lookupField fields "format")) (.obj [])))

/-- Source `formatPricingResult`.  The return value is a JS value because
the text branch returns the raw text field without coercion; every other
path returns a string. -/
def formatPricingResult (E : JsExt) (result : JSVal)
    (defaults : CreditFormatOptions) : JSVal :=
  match result with
  | .obj fields =>
      match lookupField fields "type" with
      | some (.str "text") =>
          coalesce (orUndefined (lookupField fields "text")) (.str "")
      | some (.str "usd") =>
          match asFiniteNumber E (orUndefined (lookupField fields "usd")) with
          | none => .str ""
          | some usd => .str (formatCreditsLabel E usd (resultFormat defaults fields))
      | some (.str "range_usd") =>
          match asFiniteNumber E (orUndefined (lookupField fields "min_usd")),
                asFiniteNumber E (orUndefined (lookupField fields "max_usd")) with
          | some minUsd, some maxUsd =>
              .str (formatCreditsRangeLabel E minUsd maxUsd (resultFormat defaults fields))
          | _, _ => .str ""
      | some (.str "list_usd") =>
          match orUndefined (lookupField fields "usd") with
          | .arr elems =>
              let usdValues := (elems.map (asFiniteNumber E)).filterMap id
              if usdValues.isEmpty then .str ""
              else .str (formatCreditsListLabel E usdValues (resultFormat defaults fields))
          | _ => .str ""
      | _ => .str ""
  | .arr _ => .str ""
  | _ => .str ""

/-- Modelled from the spec: the depends_on field of a PriceBadge. -/
structure PriceBadgeDependsOn where
  widgets : Option (List String) := none
  inputs : Option (List String) := none

/-- Modelled from the spec: the PriceBadge declaration supplied by the
node-definition collaborator (src has only its consumer), section 6 of the
spec: engine, depends_on with widget and input name lists, optional
result_defaults, and the expression text. -/
structure PriceBadge where
  engine : Option String := none
  depends_on : Option PriceBadgeDependsOn := none
  result_defaults : Option CreditFormatOptions := none
  expr : String

/-- Source `JsonataPricingRule.depends_on` after normalization. -/
structure DependsOn where
  widgets : List String
  inputs : List String

/-- Source `JsonataPricingRule` (the engine tag is a plain string here;
the literal value is always compared against "jsonata"). -/
structure JsonataPricingRule where
  engine : String
  depends_on : DependsOn
  result_defaults : Option CreditFormatOptions := none
  expr : String

/-- Source `CompiledJsonataPricingRule`: the rule plus the compiled handle
(none is the permanent compile-failure sentinel). -/
structure CompiledJsonataPricingRule extends JsonataPricingRule where
  _compiled : Option Unit

/-- Source `priceBadgeToRule`.  Note: the source object literal omits
result_defaults, so the converted rule never carries the declared
defaults; the structure default of none mirrors the omission. -/
def priceBadgeToRule (pb : PriceBadge) : JsonataPricingRule :=
  { engine := pb.engine.getD "jsonata"
    depends_on :=
      { widgets := (pb.depends_on.bind (fun d => d.widgets)).getD []
        inputs := (pb.depends_on.bind (fun d => d.inputs)).getD [] }
    expr := pb.expr }

/-- Source `compileRule`: the try/catch around jsonata(expr) is the Option
in JsExt.compileExpr; a throw yields the null sentinel, never a crash. -/
def compileRule (E : JsExt) (rule : JsonataPricingRule) : CompiledJsonataPricingRule :=
  { rule with _compiled := E.compileExpr rule.expr }

/-- The process-wide compiledRulesCache, a map from node-type name to the
stored value (insertion at the front; lookup takes the newest binding). -/
def CompiledRulesCache : Type := List (String × Option CompiledJsonataPricingRule)

/-- Map.get on the compiled-rules cache (outer none = key absent). -/
def cacheLookup (c : CompiledRulesCache) (name : String) :
    Option (Option CompiledJsonataPricingRule) :=
  (List.find? (fun p => p.1 == name) c).map (fun p => p.2)

/-- Source `getCompiledRuleForNodeType`.  Returns the resulting rule, the
updated cache, and whether a compilation was performed on this call. -/
def getCompiledRuleForNodeType (E : JsExt) (c : CompiledRulesCache)
    (nodeName : String) (priceBadge : Option PriceBadge) :
    Option CompiledJsonataPricingRule × CompiledRulesCache × Bool :=
  match priceBadge with
  | none => (none, c, false)
  | some pb =>
      match cacheLookup c nodeName with
      | some v => (v, c, false)
      | none =>
          let rule := priceBadgeToRule pb
          let compiled := compileRule E rule
          (some compiled, ((nodeName, some compiled) :: c), true)

/-- A litegraph widget as read by the module: a name and a current value. -/
structure Widget where
  name : String
  value : JSVal

/-- A litegraph input slot: a name and an optional link reference
(none models both null and undefined). -/
structure InputSlot where
  name : String
  link : Option Nat

/-- The nodeData fields the module reads from a node's constructor. -/
structure NodeData where
  name : Option String := none
  api_node : Option Bool := none
  price_badge : Option PriceBadge := none

/-- A node instance as observed by the module. -/
structure Node where
  nodeData : Option NodeData := none
  widgets : Option (List Widget) := none
  inputs : Option (List InputSlot) := none

/-- The widget value read by the context builder: find the widget by name
in node.widgets (absent list or absent widget reads as undefined). -/
def nodeWidgetValue (node : Node) (name : String) : JSVal :=
  match (node.widgets.getD []).find? (fun x => x.name == name) with
  | some w => w.value
  | none => .undefined

/-- The input connection state read by the context builder: a non-null
link reference means connected. -/
def nodeInputConnected (node : Node) (name : String) : Bool :=
  match (node.inputs.getD []).find? (fun x => x.name == name) with
  | some s => s.link.isSome
  | none => false

/-- Source `JsonataEvalContext` (the records are association lists in
declaration order; duplicate declared names write identical entries, so
first-match lookup agrees with the JS record). -/
structure JsonataEvalContext where
  w : List (String × NormalizedWidgetValue)
  i : List (String × Bool)

/-- Source `buildJsonataContext`. -/
def buildJsonataContext (E : JsExt) (node : Node) (rule : JsonataPricingRule) :
    JsonataEvalContext :=
  { w := rule.depends_on.widgets.map
      (fun name => (name, normalizeWidgetValue E (nodeWidgetValue node name)))
    i := rule.depends_on.inputs.map
      (fun name => (name, nodeInputConnected node name)) }

/-- ctx.w[name]?.raw — undefined when the record has no such key. -/
def ctxWidgetRaw (ctx : JsonataEvalContext) (name : String) : JSVal :=
  match ctx.w.find? (fun p => p.1 == name) with
  | some p => p.2.raw
  | none => .undefined

/-- ctx.i[name]?.connected — falsy when the record has no such key. -/
def ctxInputConnected (ctx : JsonataEvalContext) (name : String) : Bool :=
  match ctx.i.find? (fun p => p.1 == name) with
  | some p => p.2
  | none => false

/-- Source `safeValueForSig`: primitives render directly; other values go
through JSON.stringify with a String() fallback when it throws. -/
def safeValueForSig (E : JsExt) : JSVal → String
  | .null => ""
  | .undefined => ""
  | .str s => s
  | .num n => E.numToString n
  | .bool true => "true"
  | .bool false => "false"
  | v =>
      match E.jsonStringify v with
      | some s => s
      | none => E.objToString v

/-- Source `buildSignature`: widget parts in declared order, then input
parts in declared order, joined by a vertical bar. -/
def buildSignature (E : JsExt) (ctx : JsonataEvalContext)
    (rule : JsonataPricingRule) : String :=
  let wparts := rule.depends_on.widgets.map
    (fun name => "w:" ++ name ++ "=" ++ safeValueForSig E (ctxWidgetRaw ctx name))
  let iparts := rule.depends_on.inputs.map
    (fun name => "i:" ++ name ++ "=" ++ (if ctxInputConnected ctx name then "1" else "0"))
  String.intercalate "|" (wparts ++ iparts)

/-- Source `CacheEntry` (the label is a JS value: see formatPricingResult). -/
structure CacheEntry where
  sig : String
  label : JSVal

/-- The per-node-instance mutable state of the scheduler: the cache entry,
the DesiredSignature, the in-flight record (its signature; the WeakMap
holds at most one record per node by construction), and the reactive tick. -/
structure SchedState where
  cache : Option CacheEntry := none
  desired : Option String := none
  inflight : Option String := none
  tick : Nat := 0

/-- Source `scheduleEvaluation` (the synchronous part): record the desired
signature; coalesce onto an identical-signature in-flight task; refuse to
start when the rule carries the failure sentinel; otherwise start a task
and overwrite the in-flight record.  The Bool reports whether a new
evaluation task was started. -/
def scheduleEvaluation (rule : CompiledJsonataPricingRule) (sig : String)
    (st : SchedState) : SchedState × Bool :=
  let st1 := { st with desired := some sig }
  if st1.inflight = some sig then (st1, false)
  else if rule._compiled.isNone then (st1, false)
  else ({ st1 with inflight := some sig }, true)

/-- The finally-handler shared by both settlement paths: clear the
in-flight record only when it still refers to the settling signature,
then bump the reactive tick. -/
def settleFinally (sig : String) (st : SchedState) : SchedState :=
  let st1 := if st.inflight = some sig then { st with inflight := none } else st
  { st1 with tick := st1.tick + 1 }

/-- Settlement of a successful evaluation task (the then-handler plus the
finally-handler): format the result, and write the cache only when the
desired signature still equals the task's signature. -/
def settleSuccess (E : JsExt) (rule : CompiledJsonataPricingRule)
    (sig : String) (res : JSVal) (st : SchedState) : SchedState :=
  let label := formatPricingResult E res (rule.result_defaults.getD {})
  let st1 := if st.desired = some sig then { st with cache := some ⟨sig, label⟩ } else st
  settleFinally sig st1

/-- Settlement of a failed evaluation task (the catch-handler plus the
finally-handler): cache an empty label when the desired signature still
equals the task's signature, to avoid retry spam for that signature. -/
def settleFailure (sig : String) (st : SchedState) : SchedState :=
  let st1 := if st.desired = some sig then { st with cache := some ⟨sig, .str ""⟩ } else st
  settleFinally sig st1

/-- Source `getRuleForNode`: resolve the node's compiled rule via the
per-type cache; api-node gating and absence of a price badge yield none. -/
def getRuleForNode (E : JsExt) (c : CompiledRulesCache) (node : Node) :
    Option CompiledJsonataPricingRule × CompiledRulesCache :=
  match node.nodeData with
  | none => (none, c)
  | some nd =>
      if nd.api_node.getD false = false then (none, c)
      else
        match nd.price_badge with
        | none => (none, c)
        | some pb =>
            let r := getCompiledRuleForNodeType E c (nd.name.getD "") (some pb)
            (r.1, r.2.1)

/-- The full outcome of one getNodeDisplayPrice call: the returned label,
the updated per-node scheduler state, the updated compiled-rules cache,
and whether a new evaluation task was started. -/
structure PriceQueryResult where
  label : JSVal
  state : SchedState
  rules : CompiledRulesCache
  started : Bool

/-- Source `getNodeDisplayPrice` (the synchronous getter): rule
resolution, context and signature building, the cache-hit fast path, and
the miss path that schedules an evaluation and returns the last-known
label, or an empty string when none is cached yet. -/
def getNodeDisplayPrice (E : JsExt) (c : CompiledRulesCache) (node : Node)
    (st : SchedState) : PriceQueryResult :=
  match node.nodeData with
  | none => ⟨.str "", st, c, false⟩
  | some nd =>
      if nd.api_node.getD false = false then ⟨.str "", st, c, false⟩
      else
        match getRuleForNode E c node with
        | (none, c1) => ⟨.str "", st, c1, false⟩
        | (some rule, c1) =>
            if rule.engine ≠ "jsonata" then ⟨.str "", st, c1, false⟩
            else if rule._compiled.isNone then ⟨.str "", st, c1, false⟩
            else
              let ctx := buildJsonataContext E node rule.toJsonataPricingRule
              let sig := buildSignature E ctx rule.toJsonataPricingRule
              match st.cache with
              | some cached =>
                  if cached.sig = sig then ⟨cached.label, st, c1, false⟩
                  else
                    let r := scheduleEvaluation rule sig st
                    ⟨cached.label, r.1, c1, r.2⟩
              | none =>
                  let r := scheduleEvaluation rule sig st
                  ⟨.str "", r.1, c1, r.2⟩

/-!  Concrete instantiations used by the witness theorems.  -/

/-- A concrete, executable instantiation of the opaque collaborators,
used only to evaluate witnesses on concrete inputs. -/
def testExt : JsExt :=
  { numToString := fun n =>
      match n with
      | .fin q => toString q.num
      | .nan => "NaN"
      | .inf => "Infinity"
      | .neginf => "-Infinity"
    parseNum := fun _ => .nan
    fmtCredits := fun q => toString q.num
    jsonStringify := fun _ => none
    objToString := fun _ => "objstr"
    compileExpr := fun s => if s = "bad" then none else some () }

/-- A scheduler state whose in-flight task has signature s1 while a newer
request moved the desired signature to s2. -/
def stSuperseded : SchedState :=
  { cache := some ⟨"s0", .str "old"⟩
    desired := some "s2"
    inflight := some "s1"
    tick := 0 }

/-- A concrete compiled rule over one declared widget named x. -/
def ruleW : CompiledJsonataPricingRule :=
  { engine := "jsonata", depends_on := ⟨["x"], []⟩, expr := "e", _compiled := some () }

/-!  Theorems for the claims.  -/

/-- C1: when an evaluation task settles, successfully or with an error,
the cache entry is written only if the settling task's signature still
equals the node's DesiredSignature; a superseded task (whose signature no
longer equals the desired one) never overwrites the cache. -/
theorem settlement_never_writes_superseded (E : JsExt)
    (rule : CompiledJsonataPricingRule) (sig : String) (res : JSVal)
    (st : SchedState) (h : st.desired ≠ some sig) :
    (settleSuccess E rule sig res st).cache = st.cache ∧
    (settleFailure sig st).cache = st.cache := by
  unfold settleSuccess settleFailure settleFinally
  simp only [if_neg h]
  constructor <;> split <;> rfl

/-- Witness for C1 at a concrete superseded state: the task for signature
s1 settles after the desired signature moved to s2, and the cache is
untouched on both the success and the failure path. -/
theorem settlement_never_writes_superseded_witness :
    (settleSuccess testExt ruleW "s1" (.str "x") stSuperseded).cache = stSuperseded.cache ∧
    (settleFailure "s1" stSuperseded).cache = stSuperseded.cache :=
  settlement_never_writes_superseded testExt ruleW "s1" (.str "x") stSuperseded (by decide)

/-- C3: the in-flight table holds at most one record per node (it is a
single optional record here, by construction); a request whose signature
equals the in-flight record's signature does not start a second task and
leaves the record unchanged (coalescing); and settlement clears the
in-flight record only when it still refers to the settling task's
signature. -/
theorem inflight_coalesce_and_conditional_clear (E : JsExt)
    (rule rule2 : CompiledJsonataPricingRule) (sig : String) (st : SchedState)
    (hin : st.inflight = some sig)
    (sig2 : String) (res : JSVal) (st2 : SchedState)
    (hne : st2.inflight ≠ some sig2) :
    (scheduleEvaluation rule sig st).2 = false ∧
    (scheduleEvaluation rule sig st).1.inflight = st.inflight ∧
    (settleSuccess E rule2 sig2 res st2).inflight = st2.inflight ∧
    (settleFailure sig2 st2).inflight = st2.inflight := by
  unfold scheduleEvaluation settleSuccess settleFailure settleFinally
  refine ⟨by simp [hin], by simp [hin], ?_, ?_⟩ <;>
    · split <;> simp [hne]

/-- Witness for C3 at concrete inputs: a repeat request for the in-flight
signature s1 is coalesced, and a settlement for s1 does not clear an
in-flight record that meanwhile refers to s9. -/
theorem inflight_coalesce_and_conditional_clear_witness :
    (scheduleEvaluation ruleW "s1"
        { cache := none, desired := some "s1", inflight := some "s1", tick := 0 }).2 = false ∧
    (scheduleEvaluation ruleW "s1"
        { cache := none, desired := some "s1", inflight := some "s1", tick := 0 }).1.inflight =
      ({ cache := none, desired := some "s1", inflight := some "s1", tick := 0 } : SchedState).inflight ∧
    (settleSuccess testExt ruleW "s1" (.str "x")
        { cache := none, desired := some "s9", inflight := some "s9", tick := 0 }).inflight =
      ({ cache := none, desired := some "s9", inflight := some "s9", tick := 0 } : SchedState).inflight ∧
    (settleFailure "s1"
        { cache := none, desired := some "s9", inflight := some "s9", tick := 0 }).inflight =
      ({ cache := none, desired := some "s9", inflight := some "s9", tick := 0 } : SchedState).inflight :=
  inflight_coalesce_and_conditional_clear testExt ruleW ruleW "s1"
    { cache := none, desired := some "s1", inflight := some "s1", tick := 0 } rfl
    "s1" (.str "x")
    { cache := none, desired := some "s9", inflight := some "s9", tick := 0 } (by decide)

/-- Helper: how getNodeDisplayPrice reduces once the node resolves to a
compiled jsonata rule found in the per-type cache. -/
theorem getNodeDisplayPrice_resolved (E : JsExt) (c : CompiledRulesCache)
    (node : Node) (st : SchedState) (nd : NodeData) (pb : PriceBadge)
    (rule : CompiledJsonataPricingRule)
    (hnd : node.nodeData = some nd) (hapi : nd.api_node = some true)
    (hpb : nd.price_badge = some pb)
    (hlook : cacheLookup c (nd.name.getD "") = some (some rule))
    (heng : rule.engine = "jsonata") (hcomp : rule._compiled = some ()) :
    getNodeDisplayPrice E c node st =
      (match st.cache with
       | some cached =>
           if cached.sig = buildSignature E
               (buildJsonataContext E node rule.toJsonataPricingRule)
               rule.toJsonataPricingRule
           then ⟨cached.label, st, c, false⟩
           else
             let r := scheduleEvaluation rule
               (buildSignature E (buildJsonataContext E node rule.toJsonataPricingRule)
                 rule.toJsonataPricingRule) st
             ⟨cached.label, r.1, c, r.2⟩
       | none =>
           let r := scheduleEvaluation rule
             (buildSignature E (buildJsonataContext E node rule.toJsonataPricingRule)
               rule.toJsonataPricingRule) st
           ⟨.str "", r.1, c, r.2⟩) := by
  unfold getNodeDisplayPrice getRuleForNode getCompiledRuleForNodeType
  rw [hnd]
  simp [hapi, hpb, hlook, heng, hcomp]

/-- C7: a getDisplayLabel call that misses the node's cache (no entry, or
an entry whose signature differs from the current one) returns the
last-known cached label even though it is stale, and returns the empty
string only when no label has been cached for the node yet. -/
theorem miss_returns_last_known_label (E : JsExt) (c : CompiledRulesCache)
    (node : Node) (st : SchedState) (nd : NodeData) (pb : PriceBadge)
    (rule : CompiledJsonataPricingRule) (sig : String)
    (hnd : node.nodeData = some nd) (hapi : nd.api_node = some true)
    (hpb : nd.price_badge = some pb)
    (hlook : cacheLookup c (nd.name.getD "") = some (some rule))
    (heng : rule.engine = "jsonata") (hcomp : rule._compiled = some ())
    (hsig : buildSignature E (buildJsonataContext E node rule.toJsonataPricingRule)
        rule.toJsonataPricingRule = sig) :
    (∀ ce, st.cache = some ce → ce.sig ≠ sig →
        (getNodeDisplayPrice E c node st).label = ce.label) ∧
    (st.cache = none → (getNodeDisplayPrice E c node st).label = .str "") := by
  rw [getNodeDisplayPrice_resolved E c node st nd pb rule hnd hapi hpb hlook heng hcomp]
  constructor
  · intro ce hce hne
    rw [hce, hsig]
    simp [if_neg hne]
  · intro hnone
    rw [hnone]

/-- A concrete price-badge declaration with expression e. -/
def pbE : PriceBadge := { expr := "e" }

/-- Concrete node data of type name T carrying pbE. -/
def ndT : NodeData :=
  { name := some "T", api_node := some true, price_badge := some pbE }

/-- A concrete node of type T whose widget x currently holds low. -/
def nodeLow : Node :=
  { nodeData := some ndT, widgets := some [⟨"x", .str "low"⟩], inputs := some [] }

/-- A per-type cache binding T to the compiled rule ruleW. -/
def rulesT : CompiledRulesCache := [("T", some ruleW)]

/-- A scheduler state holding a stale cache entry (signature old). -/
def stStale : SchedState :=
  { cache := some ⟨"old", .str "prev"⟩, desired := none, inflight := none, tick := 0 }

/-- Witness for C7: a concrete node whose cache holds a stale entry with
label prev for signature old; the call returns prev, not the empty
string, while the fresh signature w:x=low misses. -/
theorem miss_returns_last_known_label_witness :
    (getNodeDisplayPrice testExt rulesT nodeLow stStale).label = .str "prev" :=
  (miss_returns_last_known_label testExt rulesT nodeLow stStale ndT pbE ruleW
      "w:x=low" rfl rfl rfl rfl rfl rfl rfl).1
    ⟨"old", .str "prev"⟩ rfl (by decide)

/-- C5: when an evaluation task fails and the node's DesiredSignature
still equals the task's signature, the cache receives that signature with
the empty-string label; a later getDisplayLabel call under the same
signature then returns the cached empty label without starting a new
task (no retry storm), while a call under a different signature starts a
fresh evaluation. -/
theorem failure_caches_empty_for_current_signature (E : JsExt)
    (c : CompiledRulesCache) (node node2 : Node) (st : SchedState)
    (nd : NodeData) (pb : PriceBadge) (rule : CompiledJsonataPricingRule)
    (sig sig2 : String)
    (hnd : node.nodeData = some nd) (hapi : nd.api_node = some true)
    (hpb : nd.price_badge = some pb)
    (hlook : cacheLookup c (nd.name.getD "") = some (some rule))
    (heng : rule.engine = "jsonata") (hcomp : rule._compiled = some ())
    (hsig : buildSignature E (buildJsonataContext E node rule.toJsonataPricingRule)
        rule.toJsonataPricingRule = sig)
    (hnd2 : node2.nodeData = some nd)
    (hsig2 : buildSignature E (buildJsonataContext E node2 rule.toJsonataPricingRule)
        rule.toJsonataPricingRule = sig2)
    (hne : sig2 ≠ sig)
    (hdes : st.desired = some sig) (hinf : st.inflight = some sig) :
    (settleFailure sig st).cache = some ⟨sig, .str ""⟩ ∧
    (getNodeDisplayPrice E c node (settleFailure sig st)).label = .str "" ∧
    (getNodeDisplayPrice E c node (settleFailure sig st)).started = false ∧
    (getNodeDisplayPrice E c node2 (settleFailure sig st)).started = true := by
  have hcache : (settleFailure sig st).cache = some ⟨sig, .str ""⟩ := by
    unfold settleFailure settleFinally
    simp [hdes]
    split <;> rfl
  have hinf2 : (settleFailure sig st).inflight = none := by
    unfold settleFailure settleFinally
    simp [hdes, hinf]
  refine ⟨hcache, ?_, ?_, ?_⟩
  · rw [getNodeDisplayPrice_resolved E c node _ nd pb rule hnd hapi hpb hlook heng hcomp,
      hcache, hsig]
    simp
  · rw [getNodeDisplayPrice_resolved E c node _ nd pb rule hnd hapi hpb hlook heng hcomp,
      hcache, hsig]
    simp
  · rw [getNodeDisplayPrice_resolved E c node2 _ nd pb rule hnd2 hapi hpb hlook heng hcomp,
      hcache, hsig2]
    have hne2 : sig ≠ sig2 := Ne.symm hne
    unfold scheduleEvaluation
    simp [hinf2, hcomp, hne2]

/-- A scheduler state in which the evaluation for signature w:x=low is in
flight and desired. -/
def stPendingLow : SchedState :=
  { cache := none, desired := some "w:x=low", inflight := some "w:x=low", tick := 0 }

/-- A concrete node of type T whose widget x currently holds high. -/
def nodeHigh : Node :=
  { nodeData := some ndT, widgets := some [⟨"x", .str "high"⟩], inputs := some [] }

/-- Witness for C5: the pending w:x=low evaluation fails; the node then
shows the empty label for w:x=low without a new task, while the node
whose widget moved to high starts a fresh evaluation. -/
theorem failure_caches_empty_for_current_signature_witness :
    (settleFailure "w:x=low" stPendingLow).cache = some ⟨"w:x=low", .str ""⟩ ∧
    (getNodeDisplayPrice testExt rulesT nodeLow (settleFailure "w:x=low" stPendingLow)).label
      = .str "" ∧
    (getNodeDisplayPrice testExt rulesT nodeLow (settleFailure "w:x=low" stPendingLow)).started
      = false ∧
    (getNodeDisplayPrice testExt rulesT nodeHigh (settleFailure "w:x=low" stPendingLow)).started
      = true :=
  failure_caches_empty_for_current_signature testExt rulesT nodeLow nodeHigh
    stPendingLow ndT pbE ruleW "w:x=low" "w:x=high"
    rfl rfl rfl rfl rfl rfl rfl rfl rfl (by decide) rfl rfl

/-- C6: a node type whose expression fails to compile is handled without
crashing (compileRule totalizes the failure into the null sentinel); the
per-type cache then permanently records the sentinel, a later lookup for
the same type performs no new compilation and returns the same sentinel,
and every getDisplayLabel call on a node of that type returns the empty
string and starts no evaluation task, both on the compiling call and on
every later call. -/
theorem compile_failure_sentinel_disables_type (E : JsExt) (pb : PriceBadge)
    (name : String) (c : CompiledRulesCache) (node : Node) (st : SchedState)
    (hfail : E.compileExpr pb.expr = none)
    (hmiss : cacheLookup c name = none)
    (hnd : node.nodeData = some ⟨some name, some true, some pb⟩) :
    (compileRule E (priceBadgeToRule pb))._compiled = none ∧
    (getCompiledRuleForNodeType E c name (some pb)).1
      = some (compileRule E (priceBadgeToRule pb)) ∧
    cacheLookup (getCompiledRuleForNodeType E c name (some pb)).2.1 name
      = some (some (compileRule E (priceBadgeToRule pb))) ∧
    (getCompiledRuleForNodeType E (getCompiledRuleForNodeType E c name (some pb)).2.1
        name (some pb)).2.2 = false ∧
    (getCompiledRuleForNodeType E (getCompiledRuleForNodeType E c name (some pb)).2.1
        name (some pb)).1 = some (compileRule E (priceBadgeToRule pb)) ∧
    (getNodeDisplayPrice E c node st).label = .str "" ∧
    (getNodeDisplayPrice E c node st).started = false ∧
    (getNodeDisplayPrice E (getCompiledRuleForNodeType E c name (some pb)).2.1 node st).label
      = .str "" ∧
    (getNodeDisplayPrice E (getCompiledRuleForNodeType E c name (some pb)).2.1 node st).started
      = false := by
  have hsent : (compileRule E (priceBadgeToRule pb))._compiled = none := by
    unfold compileRule priceBadgeToRule
    exact hfail
  have hfirst : getCompiledRuleForNodeType E c name (some pb)
      = (some (compileRule E (priceBadgeToRule pb)),
         (name, some (compileRule E (priceBadgeToRule pb))) :: c, true) := by
    unfold getCompiledRuleForNodeType
    rw [hmiss]
  have hlook2 : cacheLookup ((name, some (compileRule E (priceBadgeToRule pb))) :: c) name
      = some (some (compileRule E (priceBadgeToRule pb))) := by
    unfold cacheLookup
    simp [List.find?]
  have hprice : ∀ c2 : CompiledRulesCache,
      cacheLookup c2 name = some (some (compileRule E (priceBadgeToRule pb))) →
      getNodeDisplayPrice E c2 node st = ⟨.str "", st, c2, false⟩ := by
    intro c2 hl
    unfold getNodeDisplayPrice getRuleForNode getCompiledRuleForNodeType
    rw [hnd]
    by_cases heng : (compileRule E (priceBadgeToRule pb)).engine = "jsonata"
    · simp [hl, heng, hsent]
    · simp [hl, heng]
  have hpricefirst : getNodeDisplayPrice E c node st
      = ⟨.str "", st, (name, some (compileRule E (priceBadgeToRule pb))) :: c, false⟩ := by
    unfold getNodeDisplayPrice getRuleForNode
    rw [hnd]
    by_cases heng : (compileRule E (priceBadgeToRule pb)).engine = "jsonata"
    · simp [hfirst, heng, hsent]
    · simp [hfirst, heng]
  refine ⟨hsent, ?_, ?_, ?_, ?_, ?_, ?_, ?_, ?_⟩
  · rw [hfirst]
  · rw [hfirst]; exact hlook2
  · rw [hfirst]
    unfold getCompiledRuleForNodeType
    rw [hlook2]
  · rw [hfirst]
    unfold getCompiledRuleForNodeType
    rw [hlook2]
  · rw [hpricefirst]
  · rw [hpricefirst]
  · rw [hfirst]
    rw [hprice _ hlook2]
  · rw [hfirst]
    rw [hprice _ hlook2]

/-- A price badge whose expression fails to compile under testExt. -/
def pbBad : PriceBadge := { expr := "bad" }

/-- A node of type B carrying the failing badge. -/
def nodeBad : Node :=
  { nodeData := some ⟨some "B", some true, some pbBad⟩ }

/-- The sentinel-carrying compiled rule for the failing badge. -/
def compiledBad : CompiledJsonataPricingRule :=
  compileRule testExt (priceBadgeToRule pbBad)

/-- The per-type cache after the first lookup of type B. -/
def rulesBad : CompiledRulesCache :=
  (getCompiledRuleForNodeType testExt [] "B" (some pbBad)).2.1

/-- Witness for C6 at concrete inputs: compiling the bad expression yields
the sentinel, the second lookup does not recompile, and both the first
and later getDisplayLabel calls return the empty string with no task. -/
theorem compile_failure_sentinel_disables_type_witness :
    compiledBad._compiled = none ∧
    (getCompiledRuleForNodeType testExt [] "B" (some pbBad)).1 = some compiledBad ∧
    cacheLookup rulesBad "B" = some (some compiledBad) ∧
    (getCompiledRuleForNodeType testExt rulesBad "B" (some pbBad)).2.2 = false ∧
    (getCompiledRuleForNodeType testExt rulesBad "B" (some pbBad)).1 = some compiledBad ∧
    (getNodeDisplayPrice testExt [] nodeBad {}).label = .str "" ∧
    (getNodeDisplayPrice testExt [] nodeBad {}).started = false ∧
    (getNodeDisplayPrice testExt rulesBad nodeBad {}).label = .str "" ∧
    (getNodeDisplayPrice testExt rulesBad nodeBad {}).started = false :=
  compile_failure_sentinel_disables_type testExt pbBad "B" [] nodeBad {} rfl rfl rfl

/-- A node whose declared widget x holds the boolean true. -/
def nodeBoolX : Node := { widgets := some [⟨"x", .bool true⟩] }

/-- A node whose declared widget x holds the string true. -/
def nodeStrX : Node := { widgets := some [⟨"x", .str "true"⟩] }

/-- Counterexample to C4 as stated: the declared widget x differs between
the two states (the boolean true versus the string true), yet both safe
render to the same signature part, so the signatures are equal and no
re-evaluation is triggered by the change. -/
theorem declared_change_same_signature_counterexample :
    nodeWidgetValue nodeBoolX "x" ≠ nodeWidgetValue nodeStrX "x" ∧
    "x" ∈ ruleW.depends_on.widgets ∧
    buildSignature testExt (buildJsonataContext testExt nodeBoolX ruleW.toJsonataPricingRule)
        ruleW.toJsonataPricingRule
      = buildSignature testExt (buildJsonataContext testExt nodeStrX ruleW.toJsonataPricingRule)
        ruleW.toJsonataPricingRule := by
  refine ⟨?_, ?_, rfl⟩
  · intro h
    have h1 : nodeWidgetValue nodeBoolX "x" = .bool true := rfl
    have h2 : nodeWidgetValue nodeStrX "x" = .str "true" := rfl
    rw [h1, h2] at h
    exact JSVal.noConfusion h
  · simp [ruleW]

/-- C4 (amended): the signature is a function of the declared dependencies
only — two states that agree on every declared widget value and every
declared input connection have equal signatures (so an undeclared-widget
change never changes the signature); distinct declared values may still
share a signature when their safe renderings coincide; and a request for a
signature with no in-flight evaluation for it, on a compiled rule, starts
a new evaluation task. -/
theorem signature_ignores_undeclared_state (E : JsExt)
    (rule : CompiledJsonataPricingRule) (n1 n2 : Node)
    (hw : ∀ name ∈ rule.depends_on.widgets,
        nodeWidgetValue n1 name = nodeWidgetValue n2 name)
    (hi : ∀ name ∈ rule.depends_on.inputs,
        nodeInputConnected n1 name = nodeInputConnected n2 name)
    (sig : String) (st : SchedState)
    (hinf : st.inflight ≠ some sig) (hcomp : rule._compiled = some ()) :
    buildSignature E (buildJsonataContext E n1 rule.toJsonataPricingRule)
        rule.toJsonataPricingRule
      = buildSignature E (buildJsonataContext E n2 rule.toJsonataPricingRule)
        rule.toJsonataPricingRule ∧
    (scheduleEvaluation rule sig st).2 = true := by
  constructor
  · have hctx : buildJsonataContext E n1 rule.toJsonataPricingRule
        = buildJsonataContext E n2 rule.toJsonataPricingRule := by
      unfold buildJsonataContext
      congr 1
      · exact List.map_congr_left (fun name h => by rw [hw name h])
      · exact List.map_congr_left (fun name h => by rw [hi name h])
    rw [hctx]
  · unfold scheduleEvaluation
    simp [hinf, hcomp]

/-- A node agreeing with nodeLow on the declared widget x but carrying a
different undeclared widget y. -/
def nodeLowY : Node :=
  { nodeData := some ndT
    widgets := some [⟨"x", .str "low"⟩, ⟨"y", .str "other"⟩]
    inputs := some [] }

/-- Witness for the amended C4: nodeLow and nodeLowY differ only in the
undeclared widget y and get equal signatures, and a request for a fresh
signature with no in-flight task starts an evaluation. -/
theorem signature_ignores_undeclared_state_witness :
    buildSignature testExt (buildJsonataContext testExt nodeLow ruleW.toJsonataPricingRule)
        ruleW.toJsonataPricingRule
      = buildSignature testExt (buildJsonataContext testExt nodeLowY ruleW.toJsonataPricingRule)
        ruleW.toJsonataPricingRule ∧
    (scheduleEvaluation ruleW "w:x=high" stStale).2 = true :=
  signature_ignores_undeclared_state testExt ruleW nodeLow nodeLowY
    (by
      intro name h
      simp [ruleW] at h
      subst h
      rfl)
    (by
      intro name h
      simp [ruleW] at h)
    "w:x=high" stStale (by decide) rfl

/-- C8: a range result formats as the empty string when either bound
fails the finite-number check; otherwise the label shows the single
credit-formatted value when the formatted min and max coincide textually
and a dash-separated range when they differ, decorated with the
approximate mark, the credits word, the suffix and the note. -/
theorem range_usd_label (E : JsExt) (defaults : CreditFormatOptions)
    (fields : List (String × JSVal))
    (hty : lookupField fields "type" = some (.str "range_usd")) :
    (asFiniteNumber E (orUndefined (lookupField fields "min_usd")) = none ∨
     asFiniteNumber E (orUndefined (lookupField fields "max_usd")) = none →
       formatPricingResult E (.obj fields) defaults = .str "") ∧
    (∀ mn mx, asFiniteNumber E (orUndefined (lookupField fields "min_usd")) = some mn →
       asFiniteNumber E (orUndefined (lookupField fields "max_usd")) = some mx →
       formatPricingResult E (.obj fields) defaults =
         .str (approxMark (orUndefined (resultFormat defaults fields).approximate)
           ++ (if E.fmtCredits mn = E.fmtCredits mx then E.fmtCredits mn
               else E.fmtCredits mn ++ "-" ++ E.fmtCredits mx)
           ++ " credits"
           ++ jsToString E (makeSuffix (orUndefined (resultFormat defaults fields).suffix))
           ++ appendNote E (orUndefined (resultFormat defaults fields).note))) := by
  constructor
  · rintro (h | h)
    · simp [formatPricingResult, hty, h]
    · rcases hmn : asFiniteNumber E (orUndefined (lookupField fields "min_usd")) with _ | mn
      · simp [formatPricingResult, hty, hmn]
      · simp [formatPricingResult, hty, hmn, h]
  · intro mn mx hmin hmax
    simp only [formatPricingResult, hty, hmin, hmax, formatCreditsRangeLabel]

/-- Witness for C8 at concrete inputs: an infinite min gives the empty
string; equal bounds render the single value; distinct bounds render the
dash range. -/
theorem range_usd_label_witness :
    formatPricingResult testExt
      (.obj [("type", .str "range_usd"), ("min_usd", .num .inf), ("max_usd", .num (.fin 2))]) {}
      = .str "" ∧
    formatPricingResult testExt
      (.obj [("type", .str "range_usd"), ("min_usd", .num (.fin 2)), ("max_usd", .num (.fin 2))]) {}
      = .str "2 credits/Run" ∧
    formatPricingResult testExt
      (.obj [("type", .str "range_usd"), ("min_usd", .num (.fin 2)), ("max_usd", .num (.fin 5))]) {}
      = .str "2-5 credits/Run" :=
  ⟨(range_usd_label testExt {}
      [("type", .str "range_usd"), ("min_usd", .num .inf), ("max_usd", .num (.fin 2))]
      rfl).1 (Or.inl rfl),
   ((range_usd_label testExt {}
      [("type", .str "range_usd"), ("min_usd", .num (.fin 2)), ("max_usd", .num (.fin 2))]
      rfl).2 2 2 rfl rfl).trans (by rfl),
   ((range_usd_label testExt {}
      [("type", .str "range_usd"), ("min_usd", .num (.fin 2)), ("max_usd", .num (.fin 5))]
      rfl).2 2 5 rfl rfl).trans (by rfl)⟩

/-- C9: the formatter is a total function (so it never throws), and it
returns the empty string for every non-object input, for arrays, for an
object with an unrecognized type tag, for a usd result whose usd payload
is not a finite number, for a range result with a non-finite bound (see
the range theorem), for a list result whose usd field is not an array,
and for a list whose entries are all non-finite. -/
theorem formatter_empty_on_invalid (E : JsExt) (defaults : CreditFormatOptions) :
    (formatPricingResult E .null defaults = .str "") ∧
    (formatPricingResult E .undefined defaults = .str "") ∧
    (∀ b, formatPricingResult E (.bool b) defaults = .str "") ∧
    (∀ n, formatPricingResult E (.num n) defaults = .str "") ∧
    (∀ s, formatPricingResult E (.str s) defaults = .str "") ∧
    (∀ elems, formatPricingResult E (.arr elems) defaults = .str "") ∧
    (∀ fields, lookupField fields "type" ≠ some (.str "text") →
       lookupField fields "type" ≠ some (.str "usd") →
       lookupField fields "type" ≠ some (.str "range_usd") →
       lookupField fields "type" ≠ some (.str "list_usd") →
       formatPricingResult E (.obj fields) defaults = .str "") ∧
    (∀ fields, lookupField fields "type" = some (.str "usd") →
       asFiniteNumber E (orUndefined (lookupField fields "usd")) = none →
       formatPricingResult E (.obj fields) defaults = .str "") ∧
    (∀ fields v, lookupField fields "type" = some (.str "list_usd") →
       orUndefined (lookupField fields "usd") = v → (∀ l, v ≠ .arr l) →
       formatPricingResult E (.obj fields) defaults = .str "") ∧
    (∀ fields elems, lookupField fields "type" = some (.str "list_usd") →
       orUndefined (lookupField fields "usd") = .arr elems →
       (elems.map (asFiniteNumber E)).filterMap id = [] →
       formatPricingResult E (.obj fields) defaults = .str "") := by
  refine ⟨rfl, rfl, fun b => rfl, fun n => rfl, fun s => rfl, fun elems => rfl,
    ?_, ?_, ?_, ?_⟩
  · intro fields h1 h2 h3 h4
    simp only [formatPricingResult]
  · intro fields h1 h2
    simp [formatPricingResult, h1, h2]
  · intro fields v h1 hv hnl
    simp only [formatPricingResult, h1, hv]
  · intro fields elems h1 hv hemp
    simp [formatPricingResult, h1, hv, hemp]

/-- Witness for C9 at concrete inputs: a wrong type tag, a boolean usd
payload, a non-array list payload, and an all-non-finite list all yield
the empty string. -/
theorem formatter_empty_on_invalid_witness :
    formatPricingResult testExt (.obj [("type", .str "wrong")]) {} = .str "" ∧
    formatPricingResult testExt (.obj [("type", .str "usd"), ("usd", .bool true)]) {}
      = .str "" ∧
    formatPricingResult testExt (.obj [("type", .str "list_usd"), ("usd", .num (.fin 3))]) {}
      = .str "" ∧
    formatPricingResult testExt
      (.obj [("type", .str "list_usd"), ("usd", .arr [.num .nan, .null])]) {} = .str "" :=
  ⟨(formatter_empty_on_invalid testExt {}).2.2.2.2.2.2.1 [("type", .str "wrong")]
      (by simp [lookupField, List.find?]) (by simp [lookupField, List.find?])
      (by simp [lookupField, List.find?]) (by simp [lookupField, List.find?]),
   (formatter_empty_on_invalid testExt {}).2.2.2.2.2.2.2.1
      [("type", .str "usd"), ("usd", .bool true)] rfl rfl,
   (formatter_empty_on_invalid testExt {}).2.2.2.2.2.2.2.2.1
      [("type", .str "list_usd"), ("usd", .num (.fin 3))] (.num (.fin 3)) rfl rfl
      (fun l h => JSVal.noConfusion h),
   (formatter_empty_on_invalid testExt {}).2.2.2.2.2.2.2.2.2
      [("type", .str "list_usd"), ("usd", .arr [.num .nan, .null])] [.num .nan, .null]
      rfl rfl rfl⟩

/-- C10: a text result passes the text field through unchanged and
undecorated — including non-string values, which are returned as they are
— and yields the empty string when the text field is absent, null or
undefined. -/
theorem text_result_passthrough (E : JsExt) (defaults : CreditFormatOptions)
    (fields : List (String × JSVal))
    (hty : lookupField fields "type" = some (.str "text")) :
    (∀ v, lookupField fields "text" = some v → isNullish v = false →
        formatPricingResult E (.obj fields) defaults = v) ∧
    ((lookupField fields "text" = none ∨ lookupField fields "text" = some .null ∨
      lookupField fields "text" = some .undefined) →
        formatPricingResult E (.obj fields) defaults = .str "") := by
  constructor
  · intro v hv hnn
    simp [formatPricingResult, hty, hv, orUndefined, coalesce, hnn]
  · rintro (h | h | h) <;>
      simp [formatPricingResult, hty, h, orUndefined, coalesce, isNullish]

/-- Witness for C10 at concrete inputs: a numeric text field is returned
as the raw number, undecorated and not converted to a string, and an
absent text field yields the empty string. -/
theorem text_result_passthrough_witness :
    formatPricingResult testExt (.obj [("type", .str "text"), ("text", .num (.fin 5))]) {}
      = .num (.fin 5) ∧
    formatPricingResult testExt (.obj [("type", .str "text")]) {} = .str "" :=
  ⟨(text_result_passthrough testExt {} [("type", .str "text"), ("text", .num (.fin 5))]
      rfl).1 (.num (.fin 5)) rfl rfl,
   (text_result_passthrough testExt {} [("type", .str "text")] rfl).2 (Or.inl rfl)⟩

/-- The C2 failing input: a price-badge declaration carrying the rule
default suffix /img. -/
def pbDecl : PriceBadge :=
  { engine := some "jsonata"
    depends_on := some { widgets := some [], inputs := some [] }
    result_defaults := some { suffix := some (.str "/img") }
    expr := "e" }

/-- A successful usd evaluation result with no per-result format. -/
def resUsd1 : JSVal := .obj [("type", .str "usd"), ("usd", .num (.fin 1))]

/-- C2 (evaluation at the failing input): the declaration carries
result_defaults with suffix /img, but priceBadgeToRule drops the field, so
a successful settlement caches the label built from the global /Run
default; had the declared defaults been carried, the same result would
have formatted with the /img suffix.  The conversion contradicts the
declared-but-dead result_defaults consumption in scheduleEvaluation. -/
theorem rule_defaults_dropped_at_conversion :
    pbDecl.result_defaults = some { suffix := some (.str "/img") } ∧
    (priceBadgeToRule pbDecl).result_defaults = none ∧
    (settleSuccess testExt (compileRule testExt (priceBadgeToRule pbDecl)) "s" resUsd1
        { desired := some "s" }).cache = some ⟨"s", .str "1 credits/Run"⟩ ∧
    formatPricingResult testExt resUsd1 (pbDecl.result_defaults.getD {})
      = .str "1 credits/img" :=
  ⟨rfl, rfl, rfl, rfl⟩

end Pricing
